import Mathlib

/-!
# Quartermaster: verification of the directive parser and dispatch core

Shallow embedding of the directive-dispatch core of the Quartermaster
repository (`app.py`, `ap2.py`).  Texts are modelled as `List Char`;
Python string operations (`splitlines`, `strip`, `replace`, `in`,
`int(...)`) and the single regular expression used by the search parser
are embedded as executable Lean functions.  Shell execution and the
Streamlit UI are external collaborators: the shell is an oracle
`List Char → CommandOutcome`, the UI gestures (radio selection, the
Install button, the confirmation button) are explicit parameters, and a
dispatch produces a `Trace` of displayed messages and executed commands.
-/

namespace Quartermaster

/-- Python whitespace (the set accepted by `str.isspace`, which is what
`str.strip()` with no argument strips and what the regex class matches
for text patterns): ASCII `[ \t\n\r\f\v]`, the C1 separators, and the
Unicode space characters. -/
def isPySpace (c : Char) : Bool :=
  c = ' ' || c = '\t' || c = '\n' || c = '\r' || c = '\x0b' || c = '\x0c' ||
  c = '\x1c' || c = '\x1d' || c = '\x1e' || c = '\x1f' || c = '\x85' ||
  c = '\xa0' || c = ' ' ||
  (' ' ≤ c && c ≤ ' ') ||
  c = ' ' || c = ' ' || c = ' ' || c = ' ' || c = '　'

/-- Line-boundary characters of Python `str.splitlines` other than `\r`
(which is handled separately because of the `\r\n` digraph). -/
def isLineBreak (c : Char) : Bool :=
  c = '\n' || c = '\x0b' || c = '\x0c' || c = '\x1c' || c = '\x1d' ||
  c = '\x1e' || c = '\x85' || c = ' ' || c = ' '

/-- Worker for `splitlines`: `cur` is the line being accumulated. -/
def splitlinesGo (cur : List Char) : List Char → List (List Char)
  | [] => if cur = [] then [] else [cur]
  | '\r' :: '\n' :: rest => cur :: splitlinesGo [] rest
  | '\r' :: rest => cur :: splitlinesGo [] rest
  | c :: rest =>
    if isLineBreak c then cur :: splitlinesGo [] rest
    else splitlinesGo (cur ++ [c]) rest

/-- Python `str.splitlines()`: split at line boundaries, boundaries are
not kept, and no empty final line is produced when the text ends with a
boundary. -/
def splitlines (s : List Char) : List (List Char) :=
  splitlinesGo [] s

/-- Python `str.strip()` with no argument: drop leading and trailing
whitespace. -/
def stripPy (s : List Char) : List Char :=
  ((s.dropWhile isPySpace).reverse.dropWhile isPySpace).reverse

/-- Worker for `removeAll`, with fuel for termination (each step either
consumes the pattern `p :: ps` or one character, so fuel `s.length` is
always enough; the fuel formulation keeps the function structurally
recursive and hence kernel-evaluable). -/
def removeAllGo (p : Char) (ps : List Char) : Nat → List Char → List Char
  | _, [] => []
  | 0, s => s
  | fuel + 1, c :: rest =>
    if (p :: ps).isPrefixOf (c :: rest) then
      removeAllGo p ps fuel (rest.drop ps.length)
    else
      c :: removeAllGo p ps fuel rest

/-- Python `s.replace(pat, "")`: delete every left-to-right
non-overlapping occurrence of `pat` in `s`. -/
def removeAll (pat s : List Char) : List Char :=
  match pat with
  | [] => s
  | p :: ps => removeAllGo p ps s.length s

/-- Python substring containment, `pat in s`. -/
def occursIn (pat : List Char) : List Char → Bool
  | [] => pat.isEmpty
  | c :: rest => pat.isPrefixOf (c :: rest) || occursIn pat rest

/-- Index of the leftmost occurrence of `pat` in `s`, if any. -/
def firstOccurrence (pat : List Char) : List Char → Option Nat
  | [] => if pat.isEmpty then some 0 else none
  | c :: rest =>
    if pat.isPrefixOf (c :: rest) then some 0
    else (firstOccurrence pat rest).map (· + 1)

/-- ASCII decimal digit. -/
def isAsciiDigit (c : Char) : Bool :=
  '0' ≤ c && c ≤ '9'

/-- Numeric value of an ASCII digit. -/
def digitVal (c : Char) : Nat :=
  c.toNat - '0'.toNat

/-- Worker for `digitPart`: the remaining characters after a digit; a
single underscore is allowed only between two digits. -/
def digitPartGo (acc : Nat) : List Char → Option Nat
  | [] => some acc
  | '_' :: c :: rest =>
    if isAsciiDigit c then digitPartGo (acc * 10 + digitVal c) rest else none
  | ['_'] => none
  | c :: rest =>
    if isAsciiDigit c then digitPartGo (acc * 10 + digitVal c) rest else none

/-- The `digitpart` of the Python integer-literal grammar used by
`int(str)`: one or more ASCII digits with single underscores strictly
between digits. -/
def digitPart : List Char → Option Nat
  | [] => none
  | c :: rest =>
    if isAsciiDigit c then digitPartGo (digitVal c) rest else none

/-- Python `int(s)` on a text argument (modelled for ASCII digits):
surrounding whitespace is ignored, an optional single `+` or `-` sign
precedes the digits, and anything else fails with `ValueError`
(modelled as `none`). -/
def pyInt (s : List Char) : Option Int :=
  match stripPy s with
  | '+' :: rest => (digitPart rest).map Int.ofNat
  | '-' :: rest => (digitPart rest).map (fun n => -(n : Int))
  | rest => (digitPart rest).map Int.ofNat

/-- The tail `\s+([^\s]+)\s+([^\s]+)\s+([^\s]+)` of the search-parser
regex, matched at the start of `s`.  The classes `\s` and `[^\s]` are
disjoint, so greedy run-consumption is the unique match and no
backtracking arises; the text after the fourth group is ignored
(`re.match` does not anchor the end). -/
def tailMatch (s : List Char) : Option (List Char × List Char × List Char) :=
  let w1 := s.takeWhile isPySpace
  let r1 := s.dropWhile isPySpace
  if w1 = [] then none else
  let g2 := r1.takeWhile (fun c => !isPySpace c)
  let r2 := r1.dropWhile (fun c => !isPySpace c)
  if g2 = [] then none else
  let w2 := r2.takeWhile isPySpace
  let r3 := r2.dropWhile isPySpace
  if w2 = [] then none else
  let g3 := r3.takeWhile (fun c => !isPySpace c)
  let r4 := r3.dropWhile (fun c => !isPySpace c)
  if g3 = [] then none else
  let w3 := r4.takeWhile isPySpace
  let r5 := r4.dropWhile isPySpace
  if w3 = [] then none else
  let g4 := r5.takeWhile (fun c => !isPySpace c)
  if g4 = [] then none else some (g2, g3, g4)

/-- Worker for `reMatch4`: `pre` is the text already matched by the
non-greedy group `(.+?)`.  Shorter prefixes are tried first, matching
the lazy quantifier; `.` does not match a newline. -/
def reMatch4Go (pre : List Char) :
    List Char → Option (List Char × List Char × List Char × List Char)
  | [] => none
  | c :: rest =>
    if c = '\n' then none
    else
      match tailMatch rest with
      | some (g2, g3, g4) => some (pre ++ [c], g2, g3, g4)
      | none => reMatch4Go (pre ++ [c]) rest

/-- Python `re.match(r"(.+?)\s+([^\s]+)\s+([^\s]+)\s+([^\s]+)", line)`:
the groups of the match anchored at the start of `line`, if any. -/
def reMatch4 (line : List Char) :
    Option (List Char × List Char × List Char × List Char) :=
  reMatch4Go [] line

/-- The body of the parsing loop of `parse_winget_search`: a line either
yields a `(name, id)` record (`group(1).strip()`, `group(2).strip()`) or
is dropped. -/
def parseLine (line : List Char) : Option (List Char × List Char) :=
  match reMatch4 line with
  | some (g1, g2, _, _) => some (stripPy g1, stripPy g2)
  | none => none

/-- `parse_winget_search` from `app.py` / `ap2.py` (the two copies are
identical): split into lines; with at most 3 lines, display the
no-applications error and return `None` (modelled as `none`, the message
is emitted by the caller's trace); otherwise collect the records of the
matching lines after the fixed 3-line header. -/
def parse_winget_search (output : List Char) :
    Option (List (List Char × List Char)) :=
  let lines := splitlines output
  if lines.length ≤ 3 then none
  else some ((lines.drop 3).filterMap parseLine)

/-- The pair returned by `run_command`: captured standard output and
standard error of the shell invocation. -/
structure CommandOutcome where
  stdout : List Char
  stderr : List Char
deriving DecidableEq, Repr

/-- What the platform did with a `subprocess.run(..., shell=True,
check=False)` call: it completed with some exit code and two captured
streams, or one of the two exceptions the source handles was raised. -/
inductive ProcResult where
  | completed (stdout stderr : List Char) (exitCode : Int)
  | calledProcessError (msg : List Char)
  | fileNotFound
deriving DecidableEq, Repr

/-- The stderr text `run_command` in `app.py` returns when the
executable cannot be located. -/
def notFoundMsg : List Char :=
  "Command not found error check if winget is installed in your system.".data

/-- `run_command` from `app.py`: with `check=False` a completed process
never raises regardless of exit code, and the two exception handlers
turn platform errors into outcomes with empty stdout and a message in
stderr.  Totality over `ProcResult` is the embedding of "does not
throw". -/
def run_command : ProcResult → CommandOutcome
  | .completed out err _ => ⟨out, err⟩
  | .calledProcessError m => ⟨[], "Error: ".data ++ m⟩
  | .fileNotFound => ⟨[], notFoundMsg⟩

/-- A message displayed to the user, tagged with the Streamlit channel
that displayed it (`st.error` / `st.success` / `st.write`). -/
inductive Msg where
  | error (text : List Char)
  | success (text : List Char)
  | info (text : List Char)
deriving DecidableEq, Repr

/-- `true` exactly on success-channel messages. -/
def Msg.isSuccess : Msg → Bool
  | .success _ => true
  | _ => false

/-- Observable behaviour of one dispatch: the messages displayed, the
shell commands executed (in order), and whether the Python code would
have raised an uncaught exception (the `[0]` indexing on the selection
lookup). -/
structure Trace where
  msgs : List Msg
  cmds : List (List Char)
  crashed : Bool
deriving DecidableEq, Repr

/-- The directive marker of the search branch. -/
def searchMarker : List Char := "WINGET_SEARCH:".data

/-- The directive marker of the install branch. -/
def installMarker : List Char := "WINGET_INSTALL:".data

/-- The directive marker of the sleep-timeout branch. -/
def sleepMarker : List Char := "POWERSHELL_SLEEP:".data

/-- The search command template `winget search "<term>"`. -/
def searchCmd (term : List Char) : List Char :=
  "winget search \x22".data ++ term ++ "\x22".data

/-- The install command template `winget install --id "<id>" -e`. -/
def installCmd (pid : List Char) : List Char :=
  "winget install --id \x22".data ++ pid ++ "\x22 -e".data

/-- The power-configuration command template, with the integer rendered
the way a Python f-string renders `minutes_int`. -/
def powercfgCmd (n : Int) : List Char :=
  "powershell -Command \x22powercfg /change /standby-timeout-ac ".data ++
    (toString n).data ++ "\x22".data

/-- `st.error` text of the empty-search path (emitted inside
`parse_winget_search` in the source). -/
def noAppsMsg : List Char :=
  "No applications found with the given name".data

/-- `st.error` text of the sleep branch when `int(...)` raises. -/
def invalidTimeMsg : List Char :=
  "Invalid time provided for sleep settings. Please provide a number.".data

/-- `st.write` text of the unrecognized branch of `app.py`. -/
def cantProcessMsg : List Char :=
  ("I couldn\x27t process that request. " ++
   "I can help with Winget installations and setting the sleep timer.").data

/-- `st.write` text shown before the search-result selection. -/
def hereMsg : List Char :=
  "Here are the search results:".data

/-- `st.success` text of a completed install. -/
def installOutputMsg (out : List Char) : Msg :=
  .success ("Installation output:\n".data ++ out)

/-- `st.success` text of a completed sleep-timeout change. -/
def sleepSuccessMsg (n : Int) : Msg :=
  .success ("Sleep timeout set to ".data ++ (toString n).data ++
    " minutes.".data)

/-- `st.success` text of a confirmed raw command in `ap2.py`. -/
def cmdExecutedMsg (out : List Char) : Msg :=
  .success ("Command executed:\n".data ++ out)

/-- The directive extracted from a model response. -/
inductive Directive where
  | search (term : List Char)
  | install (pid : List Char)
  | sleepTimeout (payload : List Char)
  | unrecognized
deriving DecidableEq, Repr

/-- `true` exactly on the search variant. -/
def Directive.isSearch : Directive → Bool
  | .search _ => true
  | _ => false

/-- `true` exactly on the install variant. -/
def Directive.isInstall : Directive → Bool
  | .install _ => true
  | _ => false

/-- `true` exactly on the sleep-timeout variant. -/
def Directive.isSleep : Directive → Bool
  | .sleepTimeout _ => true
  | _ => false

/-- The `if / elif / elif / else` dispatch chain of `app.py` on the
model response, together with the payload computation of each branch:
`response_text.replace(marker, "").strip()`.  The sleep payload is kept
as text; `int(...)` is applied where the source applies it, inside the
sleep flow. -/
def classify (resp : List Char) : Directive :=
  if occursIn searchMarker resp then
    .search (stripPy (removeAll searchMarker resp))
  else if occursIn installMarker resp then
    .install (stripPy (removeAll installMarker resp))
  else if occursIn sleepMarker resp then
    .sleepTimeout (stripPy (removeAll sleepMarker resp))
  else .unrecognized

/-- The search flow, line-identical in `app.py` (lines 111-129) and
`ap2.py` (lines 112-131): run the search, report stderr if non-empty,
otherwise parse; on `None` the parse has displayed the no-applications
error; on a non-empty result list show the heading, let the user pick a
name (`sel`), look up the first record with that name (the Python `[0]`
raises on an impossible empty lookup, recorded as `crashed`), and when
the Install button was pressed run the install and report its outcome. -/
def searchFlow (term : List Char) (runner : List Char → CommandOutcome)
    (sel : List (List Char) → List Char) (installClicked : Bool) : Trace :=
  let o := runner (searchCmd term)
  if o.stderr ≠ [] then ⟨[.error o.stderr], [searchCmd term], false⟩
  else
    match parse_winget_search o.stdout with
    | none => ⟨[.error noAppsMsg], [searchCmd term], false⟩
    | some results =>
      if results.isEmpty then ⟨[], [searchCmd term], false⟩
      else
        let chosen := sel (results.map (·.1))
        match (results.filter (fun r => r.1 == chosen)).head? with
        | none => ⟨[.info hereMsg], [searchCmd term], true⟩
        | some r =>
          if installClicked then
            let o2 := runner (installCmd r.2)
            if o2.stderr ≠ [] then
              ⟨[.info hereMsg, .error o2.stderr],
               [searchCmd term, installCmd r.2], false⟩
            else
              ⟨[.info hereMsg, installOutputMsg o2.stdout],
               [searchCmd term, installCmd r.2], false⟩
          else ⟨[.info hereMsg], [searchCmd term], false⟩

/-- The response-processing block of `app.py` (lines 111-156). -/
def appDispatch (resp : List Char) (runner : List Char → CommandOutcome)
    (sel : List (List Char) → List Char) (installClicked : Bool) : Trace :=
  match classify resp with
  | .search term => searchFlow term runner sel installClicked
  | .install pid =>
    let o := runner (installCmd pid)
    if o.stderr ≠ [] then ⟨[.error o.stderr], [installCmd pid], false⟩
    else ⟨[installOutputMsg o.stdout], [installCmd pid], false⟩
  | .sleepTimeout payload =>
    match pyInt payload with
    | none => ⟨[.error invalidTimeMsg], [], false⟩
    | some n =>
      let o := runner (powercfgCmd n)
      if o.stderr ≠ [] then ⟨[.error o.stderr], [powercfgCmd n], false⟩
      else ⟨[sleepSuccessMsg n], [powercfgCmd n], false⟩
  | .unrecognized => ⟨[.info cantProcessMsg], [], false⟩

/-- The response-processing block of `ap2.py` (lines 112-142): only the
search marker has a branch; every other response is offered behind the
confirmation button and, once confirmed, is executed verbatim as a
shell command. -/
def ap2Dispatch (resp : List Char) (runner : List Char → CommandOutcome)
    (sel : List (List Char) → List Char) (installClicked : Bool)
    (confirmClicked : Bool) : Trace :=
  if occursIn searchMarker resp then
    searchFlow (stripPy (removeAll searchMarker resp)) runner sel installClicked
  else
    if confirmClicked then
      let o := runner resp
      if o.stderr ≠ [] then ⟨[.error o.stderr], [resp], false⟩
      else ⟨[cmdExecutedMsg o.stdout], [resp], false⟩
    else ⟨[], [], false⟩

/-! ## Helper lemmas: runs of characters under `takeWhile` / `dropWhile` -/

theorem takeWhile_append_sat {α} (p : α → Bool) (xs ys : List α)
    (h : ∀ c ∈ xs, p c = true) :
    (xs ++ ys).takeWhile p = xs ++ ys.takeWhile p := by
  induction xs with
  | nil => simp
  | cons c xs ih =>
    have hc : p c = true := h c (by simp)
    simp only [List.cons_append, List.takeWhile_cons, hc, if_true]
    rw [ih (fun d hd => h d (by simp [hd]))]

theorem dropWhile_append_sat {α} (p : α → Bool) (xs ys : List α)
    (h : ∀ c ∈ xs, p c = true) :
    (xs ++ ys).dropWhile p = ys.dropWhile p := by
  induction xs with
  | nil => simp
  | cons c xs ih =>
    have hc : p c = true := h c (by simp)
    simp only [List.cons_append, List.dropWhile_cons, hc, if_true]
    exact ih (fun d hd => h d (by simp [hd]))

theorem run_split {α} (p : α → Bool) (xs ys : List α)
    (hxs : ∀ c ∈ xs, p c = true)
    (hys : ∀ d, ys.head? = some d → p d = false) :
    (xs ++ ys).takeWhile p = xs ∧ (xs ++ ys).dropWhile p = ys := by
  constructor
  · rw [takeWhile_append_sat p xs ys hxs]
    cases ys with
    | nil => simp
    | cons d l =>
      have : p d = false := hys d (by simp)
      simp [List.takeWhile_cons, this]
  · rw [dropWhile_append_sat p xs ys hxs]
    cases ys with
    | nil => simp
    | cons d l =>
      have : p d = false := hys d (by simp)
      simp [List.dropWhile_cons, this]

theorem dropWhile_eq_self_of_all {α} (p : α → Bool) (s : List α)
    (h : ∀ c ∈ s, p c = false) : s.dropWhile p = s := by
  cases s with
  | nil => simp
  | cons c l =>
    have : p c = false := h c (by simp)
    simp [List.dropWhile_cons, this]

theorem stripPy_eq_self (s : List Char)
    (h : ∀ c ∈ s, isPySpace c = false) : stripPy s = s := by
  unfold stripPy
  rw [dropWhile_eq_self_of_all _ s h,
    dropWhile_eq_self_of_all _ s.reverse (fun c hc => h c (by simpa using hc)),
    List.reverse_reverse]

theorem stripPy_space_singleton (c : Char) (h : isPySpace c = true) :
    stripPy [c] = [] := by
  unfold stripPy
  simp [List.dropWhile_cons, h]

theorem head_of_append {α} {p : α → Bool} {b : Bool} (f X : List α)
    (hf : f ≠ []) (ha : ∀ c ∈ f, p c = b) :
    ∀ d, (f ++ X).head? = some d → p d = b := by
  cases f with
  | nil => exact absurd rfl hf
  | cons a l =>
    intro d hd
    simp only [List.cons_append, List.head?_cons, Option.some.injEq] at hd
    exact hd ▸ ha a (by simp)

/-! ## The regex `(.+?)\s+([^\s]+)\s+([^\s]+)\s+([^\s]+)` -/

theorem tailMatch_run (s1 f2 s2 f3 s3 f4 rest : List Char)
    (hs1 : s1 ≠ []) (hs1a : ∀ c ∈ s1, isPySpace c = true)
    (hf2 : f2 ≠ []) (hf2a : ∀ c ∈ f2, isPySpace c = false)
    (hs2 : s2 ≠ []) (hs2a : ∀ c ∈ s2, isPySpace c = true)
    (hf3 : f3 ≠ []) (hf3a : ∀ c ∈ f3, isPySpace c = false)
    (hs3 : s3 ≠ []) (hs3a : ∀ c ∈ s3, isPySpace c = true)
    (hf4 : f4 ≠ []) (hf4a : ∀ c ∈ f4, isPySpace c = false)
    (hrest : ∀ d, rest.head? = some d → isPySpace d = true) :
    tailMatch (s1 ++ (f2 ++ (s2 ++ (f3 ++ (s3 ++ (f4 ++ rest)))))) =
      some (f2, f3, f4) := by
  have nf2 : ∀ c ∈ f2, (fun c => !isPySpace c) c = true := by
    intro c hc; simp [hf2a c hc]
  have nf3 : ∀ c ∈ f3, (fun c => !isPySpace c) c = true := by
    intro c hc; simp [hf3a c hc]
  have nf4 : ∀ c ∈ f4, (fun c => !isPySpace c) c = true := by
    intro c hc; simp [hf4a c hc]
  have h1 := run_split isPySpace s1 (f2 ++ (s2 ++ (f3 ++ (s3 ++ (f4 ++ rest)))))
    hs1a (head_of_append f2 _ hf2 hf2a)
  have h2 := run_split (fun c => !isPySpace c) f2 (s2 ++ (f3 ++ (s3 ++ (f4 ++ rest))))
    nf2 (by
      intro d hd
      have := head_of_append s2 _ hs2 hs2a d hd
      simp [this])
  have h3 := run_split isPySpace s2 (f3 ++ (s3 ++ (f4 ++ rest)))
    hs2a (head_of_append f3 _ hf3 hf3a)
  have h4 := run_split (fun c => !isPySpace c) f3 (s3 ++ (f4 ++ rest))
    nf3 (by
      intro d hd
      have := head_of_append s3 _ hs3 hs3a d hd
      simp [this])
  have h5 := run_split isPySpace s3 (f4 ++ rest)
    hs3a (head_of_append f4 _ hf4 hf4a)
  have h6 := run_split (fun c => !isPySpace c) f4 rest
    nf4 (by intro d hd; simp [hrest d hd])
  simp only [tailMatch, h1.1, h1.2, h2.1, h2.2, h3.1, h3.2, h4.1, h4.2,
    h5.1, h5.2, h6.1]
  simp [hs1, hf2, hs2, hf3, hs3, hf4]

theorem tailMatch_none_head (d : Char) (l : List Char)
    (hd : isPySpace d = false) : tailMatch (d :: l) = none := by
  simp only [tailMatch, List.takeWhile_cons, hd]
  simp

theorem reMatch4Go_step (pre : List Char) (c : Char) (tail g2 g3 g4 : List Char)
    (hc : c ≠ '\n') (ht : tailMatch tail = some (g2, g3, g4)) :
    reMatch4Go pre (c :: tail) = some (pre ++ [c], g2, g3, g4) := by
  unfold reMatch4Go
  simp [hc, ht]

theorem reMatch4Go_token (f1 : List Char) :
    ∀ (pre tail g2 g3 g4 : List Char), f1 ≠ [] →
    (∀ c ∈ f1, isPySpace c = false) →
    tailMatch tail = some (g2, g3, g4) →
    reMatch4Go pre (f1 ++ tail) = some (pre ++ f1, g2, g3, g4) := by
  induction f1 with
  | nil => intro _ _ _ _ _ hne; exact absurd rfl hne
  | cons c f1' ih =>
    intro pre tail g2 g3 g4 _ hf ht
    have hcs : isPySpace c = false := hf c (by simp)
    have hc : c ≠ '\n' := by
      intro e; rw [e] at hcs; exact absurd hcs (by decide)
    cases f1' with
    | nil => simpa using reMatch4Go_step pre c tail g2 g3 g4 hc ht
    | cons d f1'' =>
      have hd : isPySpace d = false := hf d (by simp)
      have hnone : tailMatch ((d :: f1'') ++ tail) = none := by
        simpa using tailMatch_none_head d (f1'' ++ tail) hd
      show reMatch4Go pre (c :: ((d :: f1'') ++ tail)) = _
      unfold reMatch4Go
      simp only [hc, if_neg hc, hnone]
      rw [ih (pre ++ [c]) tail g2 g3 g4 (by simp) (fun e he => hf e (by simp [he])) ht]
      simp

/-! ## Lemmas on `removeAll`, `occursIn`, `firstOccurrence` -/

theorem isPrefixOf_append_self (l t : List Char) :
    l.isPrefixOf (l ++ t) = true := by
  induction l with
  | nil => simp [List.isPrefixOf]
  | cons a l ih => simp [List.isPrefixOf, ih]

theorem removeAllGo_congr (p : Char) (ps : List Char) :
    ∀ fuel fuel' (s : List Char), s.length ≤ fuel → s.length ≤ fuel' →
    removeAllGo p ps fuel s = removeAllGo p ps fuel' s := by
  intro fuel
  induction fuel with
  | zero =>
    intro fuel' s h _
    have hs : s = [] := by
      cases s with
      | nil => rfl
      | cons c l => simp at h
    subst hs
    cases fuel' <;> simp [removeAllGo]
  | succ fuel ih =>
    intro fuel' s h h'
    cases s with
    | nil => cases fuel' <;> simp [removeAllGo]
    | cons c rest =>
      cases fuel' with
      | zero => simp at h'
      | succ fuel'' =>
        simp only [List.length_cons] at h h'
        simp only [removeAllGo]
        by_cases hp : (p :: ps).isPrefixOf (c :: rest)
        · simp only [hp, if_true]
          have hl : (rest.drop ps.length).length ≤ rest.length := by
            simp [List.length_drop]
          exact ih fuel'' _ (by omega) (by omega)
        · rw [if_neg hp, if_neg hp, ih fuel'' rest (by omega) (by omega)]

theorem removeAll_cons_neg (p : Char) (ps : List Char) (c : Char)
    (rest : List Char) (h : (p :: ps).isPrefixOf (c :: rest) = false) :
    removeAll (p :: ps) (c :: rest) = c :: removeAll (p :: ps) rest := by
  unfold removeAll
  simp only [List.length_cons, removeAllGo, h]
  simp

theorem removeAll_head_match (p : Char) (ps post : List Char) :
    removeAll (p :: ps) ((p :: ps) ++ post) = removeAll (p :: ps) post := by
  unfold removeAll
  have hpre : (p :: ps).isPrefixOf (p :: (ps ++ post)) = true :=
    isPrefixOf_append_self (p :: ps) post
  simp only [List.cons_append, List.length_cons, removeAllGo, List.append_eq]
  rw [if_pos hpre, List.drop_left]
  exact removeAllGo_congr p ps _ _ post
    (by simp [List.length_append]) (le_refl _)

theorem removeAll_marker_split (p : Char) (ps : List Char) :
    ∀ pre post, (∀ c ∈ pre, c ≠ p) →
    removeAll (p :: ps) (pre ++ ((p :: ps) ++ post)) =
      pre ++ removeAll (p :: ps) post := by
  intro pre
  induction pre with
  | nil => intro post _; simpa using removeAll_head_match p ps post
  | cons c pre' ih =>
    intro post h
    have hc : c ≠ p := h c (by simp)
    have hnp : (p :: ps).isPrefixOf (c :: (pre' ++ ((p :: ps) ++ post))) = false := by
      simp [List.isPrefixOf]
      intro e
      exact absurd e.symm hc
    rw [List.cons_append, removeAll_cons_neg p ps c _ hnp,
      ih post (fun d hd => h d (by simp [hd]))]
    simp

theorem occursIn_marker (p : Char) (ps : List Char) :
    ∀ pre post, occursIn (p :: ps) (pre ++ ((p :: ps) ++ post)) = true := by
  intro pre
  induction pre with
  | nil =>
    intro post
    have : (p :: ps) ++ post = p :: (ps ++ post) := by simp
    rw [List.nil_append, this]
    unfold occursIn
    rw [show p :: (ps ++ post) = (p :: ps) ++ post from rfl,
      isPrefixOf_append_self]
    simp
  | cons c pre' ih =>
    intro post
    rw [List.cons_append]
    unfold occursIn
    rw [ih post]
    simp

theorem occursIn_of_firstOccurrence (pat : List Char) :
    ∀ s i, firstOccurrence pat s = some i → occursIn pat s = true := by
  intro s
  induction s with
  | nil =>
    intro i h
    unfold firstOccurrence at h
    unfold occursIn
    by_cases he : pat.isEmpty
    · exact he
    · simp [he] at h
  | cons c rest ih =>
    intro i h
    unfold firstOccurrence at h
    unfold occursIn
    by_cases hp : pat.isPrefixOf (c :: rest)
    · simp [hp]
    · simp only [hp, if_false] at h
      cases hfo : firstOccurrence pat rest with
      | none => rw [hfo] at h; simp at h
      | some j => rw [ih j hfo]; simp

/-! ## Claim theorems -/

/-- C7: `run_command` is total over platform results: a completed
process returns its two streams unchanged whatever the exit status (so
a non-zero exit does not throw), and a missing executable yields an
outcome with empty stdout and a non-empty descriptive stderr message
instead of a propagated platform error. -/
theorem c7_run_command_total :
    (∀ (out err : List Char) (code : Int),
      run_command (.completed out err code) = ⟨out, err⟩) ∧
    run_command .fileNotFound = ⟨[], notFoundMsg⟩ ∧
    notFoundMsg ≠ [] := by
  exact ⟨fun _ _ _ => rfl, rfl, by decide⟩

/-- C1, counterexample: on a response with text before the marker, the
payload used by the dispatcher is not the text after the marker
trimmed (`"vscode"`); the preceding text `"Sure!"` is retained. -/
theorem c1_counterexample :
    classify ("Sure! WINGET_SEARCH: vscode".data) ≠
      Directive.search ("vscode".data) ∧
    classify ("Sure! WINGET_SEARCH: vscode".data) =
      Directive.search ("Sure!  vscode".data) := by
  constructor
  · decide
  · decide

/-- C1, amended: the payload of each directive branch equals the whole
response with every occurrence of that branch's marker removed
(`str.replace`) and the result trimmed; text preceding the marker is
retained, so the payload coincides with the trimmed text after the
marker only when nothing precedes it.  The hypothesis that the prefix
avoids the marker's first character guarantees no marker occurrence
starts inside the prefix. -/
theorem c1_amended :
    (∀ pre post : List Char, (∀ c ∈ pre, c ≠ 'W') →
      classify (pre ++ searchMarker ++ post) =
        .search (stripPy (pre ++ removeAll searchMarker post))) ∧
    (∀ pre post : List Char, (∀ c ∈ pre, c ≠ 'W') →
      occursIn searchMarker (pre ++ installMarker ++ post) = false →
      classify (pre ++ installMarker ++ post) =
        .install (stripPy (pre ++ removeAll installMarker post))) ∧
    (∀ pre post : List Char, (∀ c ∈ pre, c ≠ 'P') →
      occursIn searchMarker (pre ++ sleepMarker ++ post) = false →
      occursIn installMarker (pre ++ sleepMarker ++ post) = false →
      classify (pre ++ sleepMarker ++ post) =
        .sleepTimeout (stripPy (pre ++ removeAll sleepMarker post))) := by
  refine ⟨?_, ?_, ?_⟩
  · intro pre post h
    have ho : occursIn searchMarker (pre ++ (searchMarker ++ post)) = true :=
      occursIn_marker _ _ pre post
    have hr : removeAll searchMarker (pre ++ (searchMarker ++ post)) =
        pre ++ removeAll searchMarker post :=
      removeAll_marker_split _ _ pre post h
    simp [classify, ho, hr]
  · intro pre post h hno
    have ho : occursIn installMarker (pre ++ (installMarker ++ post)) = true :=
      occursIn_marker _ _ pre post
    have hr : removeAll installMarker (pre ++ (installMarker ++ post)) =
        pre ++ removeAll installMarker post :=
      removeAll_marker_split _ _ pre post h
    rw [List.append_assoc] at hno
    simp [classify, hno, ho, hr]
  · intro pre post h hns hni
    have ho : occursIn sleepMarker (pre ++ (sleepMarker ++ post)) = true :=
      occursIn_marker _ _ pre post
    have hr : removeAll sleepMarker (pre ++ (sleepMarker ++ post)) =
        pre ++ removeAll sleepMarker post :=
      removeAll_marker_split _ _ pre post h
    rw [List.append_assoc] at hns hni
    simp [classify, hns, hni, ho, hr]

/-- C1, witness: the amended statement at a concrete input with a
prefix before the marker. -/
theorem c1_amended_witness :
    (∀ c ∈ ("hi ".data), c ≠ 'W') ∧
    classify ("hi ".data ++ searchMarker ++ " vscode".data) =
      .search (stripPy ("hi ".data ++ removeAll searchMarker " vscode".data)) :=
  ⟨by decide, c1_amended.1 "hi ".data " vscode".data (by decide)⟩

/-- C3, counterexample: in this response the sleep marker occurs at
position 0 and the search marker at position 24, yet classification
selects the search variant: the earliest marker does not win, the
fixed `if/elif` keyword order does. -/
theorem c3_counterexample :
    firstOccurrence sleepMarker
      ("POWERSHELL_SLEEP: 5 and WINGET_SEARCH: x".data) = some 0 ∧
    firstOccurrence searchMarker
      ("POWERSHELL_SLEEP: 5 and WINGET_SEARCH: x".data) = some 24 ∧
    (0 : Nat) < 24 ∧
    (classify ("POWERSHELL_SLEEP: 5 and WINGET_SEARCH: x".data)).isSearch
      = true ∧
    (classify ("POWERSHELL_SLEEP: 5 and WINGET_SEARCH: x".data)).isSleep
      = false := by
  refine ⟨by decide, by decide, by decide, by decide, by decide⟩

/-- C3, amended: with several markers present, classification follows
the fixed keyword priority search > install > sleep of the `if/elif`
chain, independent of substring positions: in particular the search
variant is selected even when the sleep marker occurs strictly
earlier in the text. -/
theorem c3_amended :
    (∀ t, occursIn searchMarker t = true →
      (classify t).isSearch = true) ∧
    (∀ t, occursIn searchMarker t = false →
      occursIn installMarker t = true →
      (classify t).isInstall = true) ∧
    (∀ t, occursIn searchMarker t = false →
      occursIn installMarker t = false →
      occursIn sleepMarker t = true →
      (classify t).isSleep = true) ∧
    (∀ t i j, firstOccurrence sleepMarker t = some i →
      firstOccurrence searchMarker t = some j → i < j →
      (classify t).isSearch = true) := by
  refine ⟨?_, ?_, ?_, ?_⟩
  · intro t h; simp [classify, h, Directive.isSearch]
  · intro t h1 h2; simp [classify, h1, h2, Directive.isInstall]
  · intro t h1 h2 h3; simp [classify, h1, h2, h3, Directive.isSleep]
  · intro t i j _ hj _
    have := occursIn_of_firstOccurrence searchMarker t j hj
    simp [classify, this, Directive.isSearch]

/-- C3, witness: the amended statement at the concrete two-marker
response. -/
theorem c3_amended_witness :
    firstOccurrence sleepMarker
      ("POWERSHELL_SLEEP: 7 WINGET_SEARCH: y".data) = some 0 ∧
    firstOccurrence searchMarker
      ("POWERSHELL_SLEEP: 7 WINGET_SEARCH: y".data) = some 20 ∧
    (0 : Nat) < 20 ∧
    (classify ("POWERSHELL_SLEEP: 7 WINGET_SEARCH: y".data)).isSearch
      = true :=
  ⟨by decide, by decide, by decide,
    c3_amended.2.2.2 ("POWERSHELL_SLEEP: 7 WINGET_SEARCH: y".data) 0 20
      (by decide) (by decide) (by decide)⟩

/-- C2: on a response containing none of the three markers, the
`app.py` dispatcher only displays the informational message and
executes nothing, and the `ap2.py` dispatcher executes nothing unless
the confirmation button was pressed, in which case it runs exactly the
raw response text. -/
theorem c2_no_marker_requires_confirmation :
    ∀ (resp : List Char) (runner : List Char → CommandOutcome)
      (sel : List (List Char) → List Char) (clicked : Bool),
    occursIn searchMarker resp = false →
    occursIn installMarker resp = false →
    occursIn sleepMarker resp = false →
    appDispatch resp runner sel clicked =
      ⟨[.info cantProcessMsg], [], false⟩ ∧
    (ap2Dispatch resp runner sel clicked false).cmds = [] ∧
    (ap2Dispatch resp runner sel clicked true).cmds = [resp] := by
  intro resp runner sel clicked h1 h2 h3
  have hc : classify resp = .unrecognized := by simp [classify, h1, h2, h3]
  refine ⟨by simp [appDispatch, hc], by simp [ap2Dispatch, h1], ?_⟩
  simp only [ap2Dispatch, h1]
  split
  · simp_all
  · by_cases he : (runner resp).stderr = [] <;> simp [he]

/-- C2, witness: the unrecognized response `"hello"` with a runner and
UI stubs. -/
theorem c2_no_marker_requires_confirmation_witness :
    occursIn searchMarker ("hello".data) = false ∧
    occursIn installMarker ("hello".data) = false ∧
    occursIn sleepMarker ("hello".data) = false ∧
    (appDispatch ("hello".data) (fun _ => ⟨[], []⟩) (fun _ => []) false =
       ⟨[.info cantProcessMsg], [], false⟩ ∧
     (ap2Dispatch ("hello".data) (fun _ => ⟨[], []⟩) (fun _ => []) false
        false).cmds = [] ∧
     (ap2Dispatch ("hello".data) (fun _ => ⟨[], []⟩) (fun _ => []) false
        true).cmds = ["hello".data]) :=
  ⟨by decide, by decide, by decide,
    c2_no_marker_requires_confirmation ("hello".data) (fun _ => ⟨[], []⟩)
      (fun _ => []) false (by decide) (by decide) (by decide)⟩

/-- C6: in the sleep branch, a payload that does not parse as a Python
integer produces exactly the user-facing validation error, no executed
command and no crash; a payload parsing as `n` makes the dispatcher run
the power-configuration command instantiated with `n`. -/
theorem c6_sleep_payload_validation :
    ∀ (resp : List Char) (runner : List Char → CommandOutcome)
      (sel : List (List Char) → List Char) (clicked : Bool),
    occursIn searchMarker resp = false →
    occursIn installMarker resp = false →
    occursIn sleepMarker resp = true →
    (pyInt (stripPy (removeAll sleepMarker resp)) = none →
      appDispatch resp runner sel clicked =
        ⟨[.error invalidTimeMsg], [], false⟩) ∧
    (∀ n, pyInt (stripPy (removeAll sleepMarker resp)) = some n →
      (appDispatch resp runner sel clicked).cmds = [powercfgCmd n] ∧
      (appDispatch resp runner sel clicked).crashed = false) := by
  intro resp runner sel clicked h1 h2 h3
  have hc : classify resp = .sleepTimeout (stripPy (removeAll sleepMarker resp)) := by
    simp [classify, h1, h2, h3]
  constructor
  · intro hn
    simp [appDispatch, hc, hn]
  · intro n hn
    simp only [appDispatch, hc, hn]
    by_cases he : (runner (powercfgCmd n)).stderr = [] <;> simp [he]

/-- C6, witness: the non-integer payload `"abc"` yields the validation
error and no command. -/
theorem c6_sleep_payload_validation_witness :
    occursIn searchMarker ("POWERSHELL_SLEEP: abc".data) = false ∧
    occursIn installMarker ("POWERSHELL_SLEEP: abc".data) = false ∧
    occursIn sleepMarker ("POWERSHELL_SLEEP: abc".data) = true ∧
    pyInt (stripPy (removeAll sleepMarker ("POWERSHELL_SLEEP: abc".data)))
      = none ∧
    appDispatch ("POWERSHELL_SLEEP: abc".data) (fun _ => ⟨[], []⟩)
      (fun _ => []) false = ⟨[.error invalidTimeMsg], [], false⟩ :=
  ⟨by decide, by decide, by decide, by decide,
    (c6_sleep_payload_validation ("POWERSHELL_SLEEP: abc".data)
      (fun _ => ⟨[], []⟩) (fun _ => []) false (by decide) (by decide)
      (by decide)).1 (by decide)⟩

/-- C9: on responses with the install marker (and no search marker) the
`app.py` variant issues the install command directly while the `ap2.py`
variant, having no install branch, routes the whole raw response text
to the confirmation gate; on responses with the search marker the two
variants produce identical traces. -/
theorem c9_install_divergence_search_agreement :
    (∀ (resp : List Char) (runner : List Char → CommandOutcome)
       (sel : List (List Char) → List Char) (clicked : Bool),
      occursIn searchMarker resp = false →
      occursIn installMarker resp = true →
      (appDispatch resp runner sel clicked).cmds =
        [installCmd (stripPy (removeAll installMarker resp))] ∧
      (ap2Dispatch resp runner sel clicked false).cmds = [] ∧
      (ap2Dispatch resp runner sel clicked true).cmds = [resp]) ∧
    (∀ (resp : List Char) (runner : List Char → CommandOutcome)
       (sel : List (List Char) → List Char) (clicked confirm : Bool),
      occursIn searchMarker resp = true →
      ap2Dispatch resp runner sel clicked confirm =
        appDispatch resp runner sel clicked) := by
  constructor
  · intro resp runner sel clicked h1 h2
    have hc : classify resp = .install (stripPy (removeAll installMarker resp)) := by
      simp [classify, h1, h2]
    refine ⟨?_, by simp [ap2Dispatch, h1], ?_⟩
    · simp only [appDispatch, hc]
      by_cases he :
          (runner (installCmd (stripPy (removeAll installMarker resp)))).stderr
            = [] <;> simp [he]
    · simp only [ap2Dispatch, h1]
      split
      · simp_all
      · by_cases he : (runner resp).stderr = [] <;> simp [he]
  · intro resp runner sel clicked confirm h
    have hc : classify resp = .search (stripPy (removeAll searchMarker resp)) := by
      simp [classify, h]
    simp [ap2Dispatch, appDispatch, h, hc]

/-- C9, witness: a concrete install-marker response and a concrete
search-marker response. -/
theorem c9_install_divergence_search_agreement_witness :
    (occursIn searchMarker ("WINGET_INSTALL: Foo.Bar".data) = false ∧
     occursIn installMarker ("WINGET_INSTALL: Foo.Bar".data) = true ∧
     (appDispatch ("WINGET_INSTALL: Foo.Bar".data) (fun _ => ⟨[], []⟩)
        (fun _ => []) false).cmds = [installCmd ("Foo.Bar".data)] ∧
     (ap2Dispatch ("WINGET_INSTALL: Foo.Bar".data) (fun _ => ⟨[], []⟩)
        (fun _ => []) false true).cmds = ["WINGET_INSTALL: Foo.Bar".data]) ∧
    (occursIn searchMarker ("WINGET_SEARCH: 7zip".data) = true ∧
     ap2Dispatch ("WINGET_SEARCH: 7zip".data) (fun _ => ⟨[], []⟩)
        (fun _ => []) false false =
       appDispatch ("WINGET_SEARCH: 7zip".data) (fun _ => ⟨[], []⟩)
        (fun _ => []) false) := by
  constructor
  · refine ⟨by decide, by decide, ?_, ?_⟩
    · have := (c9_install_divergence_search_agreement.1
        ("WINGET_INSTALL: Foo.Bar".data) (fun _ => ⟨[], []⟩) (fun _ => [])
        false (by decide) (by decide)).1
      simpa using this
    · exact (c9_install_divergence_search_agreement.1
        ("WINGET_INSTALL: Foo.Bar".data) (fun _ => ⟨[], []⟩) (fun _ => [])
        false (by decide) (by decide)).2.2
  · exact ⟨by decide,
      c9_install_divergence_search_agreement.2 ("WINGET_SEARCH: 7zip".data)
        (fun _ => ⟨[], []⟩) (fun _ => []) false false (by decide)⟩

/-- C4: with at most 3 lines of search output, `parse_winget_search`
returns the empty result (the source's `None`, before the loop ever
runs, so no exception can arise), and the search flow surfaces exactly
the no-applications message, runs no further command and does not
crash. -/
theorem c4_short_output_no_results :
    (∀ out : List Char, (splitlines out).length ≤ 3 →
      parse_winget_search out = none) ∧
    (∀ (term : List Char) (runner : List Char → CommandOutcome)
       (sel : List (List Char) → List Char) (clicked : Bool),
      (runner (searchCmd term)).stderr = [] →
      (splitlines (runner (searchCmd term)).stdout).length ≤ 3 →
      searchFlow term runner sel clicked =
        ⟨[.error noAppsMsg], [searchCmd term], false⟩) := by
  constructor
  · intro out h
    simp [parse_winget_search, h]
  · intro term runner sel clicked he hl
    have hp : parse_winget_search (runner (searchCmd term)).stdout = none := by
      simp [parse_winget_search, hl]
    simp [searchFlow, he, hp]

/-- C4, witness: a two-line output through the search flow. -/
theorem c4_short_output_no_results_witness :
    ((fun _ => ⟨"a\nb".data, []⟩ : List Char → CommandOutcome)
        (searchCmd ("x".data))).stderr = [] ∧
    (splitlines ((fun _ => ⟨"a\nb".data, []⟩ : List Char → CommandOutcome)
        (searchCmd ("x".data))).stdout).length ≤ 3 ∧
    searchFlow ("x".data) (fun _ => ⟨"a\nb".data, []⟩) (fun _ => []) false =
      ⟨[.error noAppsMsg], [searchCmd ("x".data)], false⟩ :=
  ⟨by decide, by decide,
    c4_short_output_no_results.2 ("x".data) (fun _ => ⟨"a\nb".data, []⟩)
      (fun _ => []) false (by decide) (by decide)⟩

/-- C8: a data line consisting of four whitespace-separated fields
parses to the record whose name is the first field and whose identifier
is the second; a line the regex rejects contributes nothing to the
result list; and above 3 lines the parser is exactly the per-line
filter over the lines after the header. -/
theorem c8_four_field_line :
    (∀ f1 s1 f2 s2 f3 s3 f4 : List Char,
      f1 ≠ [] → (∀ c ∈ f1, isPySpace c = false) →
      s1 ≠ [] → (∀ c ∈ s1, isPySpace c = true) →
      f2 ≠ [] → (∀ c ∈ f2, isPySpace c = false) →
      s2 ≠ [] → (∀ c ∈ s2, isPySpace c = true) →
      f3 ≠ [] → (∀ c ∈ f3, isPySpace c = false) →
      s3 ≠ [] → (∀ c ∈ s3, isPySpace c = true) →
      f4 ≠ [] → (∀ c ∈ f4, isPySpace c = false) →
      parseLine (f1 ++ s1 ++ f2 ++ s2 ++ f3 ++ s3 ++ f4) = some (f1, f2)) ∧
    (∀ (bad : List Char) (ls1 ls2 : List (List Char)), parseLine bad = none →
      (ls1 ++ bad :: ls2).filterMap parseLine =
        (ls1 ++ ls2).filterMap parseLine) ∧
    (∀ out, 3 < (splitlines out).length →
      parse_winget_search out =
        some (((splitlines out).drop 3).filterMap parseLine)) := by
  refine ⟨?_, ?_, ?_⟩
  · intro f1 s1 f2 s2 f3 s3 f4 hf1 hf1a hs1 hs1a hf2 hf2a hs2 hs2a hf3 hf3a
      hs3 hs3a hf4 hf4a
    have ht := tailMatch_run s1 f2 s2 f3 s3 f4 [] hs1 hs1a hf2 hf2a hs2 hs2a
      hf3 hf3a hs3 hs3a hf4 hf4a (by intro d hd; simp at hd)
    have hm := reMatch4Go_token f1 []
      (s1 ++ (f2 ++ (s2 ++ (f3 ++ (s3 ++ (f4 ++ [])))))) f2 f3 f4 hf1 hf1a
      (by simpa using ht)
    have hfix : f1 ++ s1 ++ f2 ++ s2 ++ f3 ++ s3 ++ f4 =
        f1 ++ (s1 ++ (f2 ++ (s2 ++ (f3 ++ (s3 ++ (f4 ++ [])))))) := by
      simp
    rw [hfix]
    unfold parseLine reMatch4
    rw [hm]
    simp [stripPy_eq_self f1 hf1a, stripPy_eq_self f2 hf2a]
  · intro bad ls1 ls2 h
    simp [List.filterMap_append, List.filterMap_cons, h]
  · intro out h
    unfold parse_winget_search
    rw [if_neg (by omega)]

/-- C8, witness: the spec's sample data row, with the rejection part at
a three-field line and the parser above 3 lines. -/
theorem c8_four_field_line_witness :
    parseLine ("7-Zip".data ++ "   ".data ++ "7zip.7zip".data ++ "   ".data
        ++ "23.01".data ++ "   ".data ++ "winget".data) =
      some ("7-Zip".data, "7zip.7zip".data) ∧
    parseLine ("A B C".data) = none ∧
    (["h1".data] ++ ("A B C".data) :: ["x 1 2 3".data]).filterMap parseLine =
      (["h1".data] ++ ["x 1 2 3".data]).filterMap parseLine := by
  refine ⟨?_, by decide, ?_⟩
  · exact c8_four_field_line.1 "7-Zip".data "   ".data "7zip.7zip".data
      "   ".data "23.01".data "   ".data "winget".data (by decide) (by decide)
      (by decide) (by decide) (by decide) (by decide) (by decide) (by decide)
      (by decide) (by decide) (by decide) (by decide) (by decide) (by decide)
  · exact c8_four_field_line.2.1 ("A B C".data) ["h1".data] ["x 1 2 3".data]
      (by decide)

/-- C10: a line beginning with two or more whitespace characters and
then at least three whitespace-separated tokens still matches the
4-field regex, but the emitted record has empty name and the first
visible token as identifier: the fields shift by one. -/
theorem c10_indented_line_shifts_fields :
    ∀ (c0 : Char) (w t1 s1 t2 s2 t3 rest : List Char),
    c0 ≠ '\n' → isPySpace c0 = true →
    w ≠ [] → (∀ c ∈ w, isPySpace c = true) →
    t1 ≠ [] → (∀ c ∈ t1, isPySpace c = false) →
    s1 ≠ [] → (∀ c ∈ s1, isPySpace c = true) →
    t2 ≠ [] → (∀ c ∈ t2, isPySpace c = false) →
    s2 ≠ [] → (∀ c ∈ s2, isPySpace c = true) →
    t3 ≠ [] → (∀ c ∈ t3, isPySpace c = false) →
    (∀ d, rest.head? = some d → isPySpace d = true) →
    parseLine (c0 :: (w ++ t1 ++ s1 ++ t2 ++ s2 ++ t3 ++ rest)) =
      some ([], t1) := by
  intro c0 w t1 s1 t2 s2 t3 rest hc0 hc0s hw hwa ht1 ht1a hs1 hs1a ht2 ht2a
    hs2 hs2a ht3 ht3a hrest
  have ht := tailMatch_run w t1 s1 t2 s2 t3 rest hw hwa ht1 ht1a hs1 hs1a
    ht2 ht2a hs2 hs2a ht3 ht3a hrest
  have hm := reMatch4Go_step []
    c0 (w ++ (t1 ++ (s1 ++ (t2 ++ (s2 ++ (t3 ++ rest)))))) t1 t2 t3 hc0 ht
  have hfix : w ++ t1 ++ s1 ++ t2 ++ s2 ++ t3 ++ rest =
      w ++ (t1 ++ (s1 ++ (t2 ++ (s2 ++ (t3 ++ rest))))) := by
    simp
  rw [hfix]
  unfold parseLine reMatch4
  rw [hm]
  simp [stripPy_space_singleton c0 hc0s, stripPy_eq_self t1 ht1a]

/-- C10, witness: the doubly-indented line `"  A B C"`. -/
theorem c10_indented_line_shifts_fields_witness :
    (' ' : Char) ≠ '\n' ∧ isPySpace ' ' = true ∧
    parseLine (' ' :: (" ".data ++ "A".data ++ " ".data ++ "B".data ++
      " ".data ++ "C".data ++ [])) = some ([], "A".data) :=
  ⟨by decide, by decide,
    c10_indented_line_shifts_fields ' ' " ".data "A".data " ".data "B".data
      " ".data "C".data [] (by decide) (by decide) (by decide) (by decide)
      (by decide) (by decide) (by decide) (by decide) (by decide) (by decide)
      (by decide) (by decide) (by decide) (by decide)
      (by intro d hd; simp at hd)⟩

/-! ## Case analysis of the search flow (for C5) -/

theorem searchFlow_cases (term : List Char)
    (runner : List Char → CommandOutcome)
    (sel : List (List Char) → List Char) (clicked : Bool) :
    ((runner (searchCmd term)).stderr ≠ [] ∧
      searchFlow term runner sel clicked =
        ⟨[.error (runner (searchCmd term)).stderr], [searchCmd term], false⟩) ∨
    ((runner (searchCmd term)).stderr = [] ∧
      ∃ msgs1 crashed1, searchFlow term runner sel clicked =
        ⟨msgs1, [searchCmd term], crashed1⟩ ∧
        ∀ m ∈ msgs1, m.isSuccess = false) ∨
    ((runner (searchCmd term)).stderr = [] ∧
      ∃ pid, (runner (installCmd pid)).stderr ≠ [] ∧
        searchFlow term runner sel clicked =
          ⟨[.info hereMsg, .error (runner (installCmd pid)).stderr],
           [searchCmd term, installCmd pid], false⟩) ∨
    ((runner (searchCmd term)).stderr = [] ∧
      ∃ pid, (runner (installCmd pid)).stderr = [] ∧
        searchFlow term runner sel clicked =
          ⟨[.info hereMsg, installOutputMsg (runner (installCmd pid)).stdout],
           [searchCmd term, installCmd pid], false⟩) := by
  by_cases h1 : (runner (searchCmd term)).stderr = []
  · have hno : ¬((runner (searchCmd term)).stderr ≠ []) := by simp [h1]
    cases hp : parse_winget_search (runner (searchCmd term)).stdout with
    | none =>
      refine Or.inr (Or.inl ⟨h1, [.error noAppsMsg], false, ?_, ?_⟩)
      · simp only [searchFlow, hp]
        rw [if_neg hno]
      · intro m hm
        simp only [List.mem_singleton] at hm
        subst hm
        rfl
    | some rs =>
      by_cases h3 : rs.isEmpty
      · refine Or.inr (Or.inl ⟨h1, [], false, ?_, by intro m hm; simp at hm⟩)
        simp only [searchFlow, hp]
        rw [if_neg hno]
        simp [h3]
      · cases hr : (rs.filter (fun r => r.1 == sel (rs.map (·.1)))).head? with
        | none =>
          refine Or.inr (Or.inl ⟨h1, [.info hereMsg], true, ?_, ?_⟩)
          · simp only [searchFlow, hp]
            rw [if_neg hno]
            simp [h3, hr]
          · intro m hm
            simp only [List.mem_singleton] at hm
            subst hm
            rfl
        | some r =>
          cases clicked with
          | false =>
            refine Or.inr (Or.inl ⟨h1, [.info hereMsg], false, ?_, ?_⟩)
            · simp only [searchFlow, hp]
              rw [if_neg hno]
              simp [h3, hr]
            · intro m hm
              simp only [List.mem_singleton] at hm
              subst hm
              rfl
          | true =>
            by_cases h6 : (runner (installCmd r.2)).stderr = []
            · refine Or.inr (Or.inr (Or.inr ⟨h1, r.2, h6, ?_⟩))
              simp only [searchFlow, hp]
              rw [if_neg hno]
              simp [h3, hr, h6]
            · refine Or.inr (Or.inr (Or.inl ⟨h1, r.2, h6, ?_⟩))
              simp only [searchFlow, hp]
              rw [if_neg hno]
              simp [h3, hr, h6]
  · refine Or.inl ⟨h1, ?_⟩
    simp only [searchFlow]
    rw [if_pos h1]

theorem searchFlow_err_mem (term : List Char)
    (runner : List Char → CommandOutcome)
    (sel : List (List Char) → List Char) (clicked : Bool) (c : List Char)
    (hc : c ∈ (searchFlow term runner sel clicked).cmds)
    (he : (runner c).stderr ≠ []) :
    Msg.error (runner c).stderr ∈ (searchFlow term runner sel clicked).msgs := by
  rcases searchFlow_cases term runner sel clicked with
    ⟨h1, heq⟩ | ⟨h1, msgs1, crashed1, heq, _⟩ | ⟨h1, pid, h6, heq⟩ |
    ⟨h1, pid, h6, heq⟩
  · rw [heq] at hc ⊢
    simp only [List.mem_singleton] at hc
    subst hc
    simp
  · rw [heq] at hc ⊢
    simp only [List.mem_singleton] at hc
    subst hc
    exact absurd h1 he
  · rw [heq] at hc ⊢
    simp only [List.mem_cons, List.not_mem_nil, or_false] at hc
    rcases hc with hc | hc
    · subst hc; exact absurd h1 he
    · subst hc; simp
  · rw [heq] at hc ⊢
    simp only [List.mem_cons, List.not_mem_nil, or_false] at hc
    rcases hc with hc | hc
    · subst hc; exact absurd h1 he
    · subst hc; exact absurd h6 he

theorem searchFlow_success_needs_ok (term : List Char)
    (runner : List Char → CommandOutcome)
    (sel : List (List Char) → List Char) (clicked : Bool) (m : Msg)
    (hm : m ∈ (searchFlow term runner sel clicked).msgs)
    (hs : m.isSuccess = true) :
    ∃ c, (searchFlow term runner sel clicked).cmds.getLast? = some c ∧
      (runner c).stderr = [] := by
  rcases searchFlow_cases term runner sel clicked with
    ⟨h1, heq⟩ | ⟨h1, msgs1, crashed1, heq, hall⟩ | ⟨h1, pid, h6, heq⟩ |
    ⟨h1, pid, h6, heq⟩
  · rw [heq] at hm
    simp only [List.mem_singleton] at hm
    subst hm
    simp [Msg.isSuccess] at hs
  · rw [heq] at hm
    have := hall m hm
    rw [this] at hs
    cases hs
  · rw [heq] at hm
    simp only [List.mem_cons, List.not_mem_nil, or_false] at hm
    rcases hm with hm | hm <;> (subst hm; simp [Msg.isSuccess] at hs)
  · exact ⟨installCmd pid, by rw [heq]; rfl, h6⟩

/-- C5: non-empty stderr always selects the error path and never the
success path, in both program variants and in every flow: every
executed command whose outcome carries non-empty stderr has that stderr
displayed through the error channel, and any success-channel message
requires the last executed command's stderr to be empty. -/
theorem c5_stderr_blocks_success :
    (∀ (resp : List Char) (runner : List Char → CommandOutcome)
       (sel : List (List Char) → List Char) (clicked : Bool) (c : List Char),
      c ∈ (appDispatch resp runner sel clicked).cmds →
      (runner c).stderr ≠ [] →
      Msg.error (runner c).stderr ∈ (appDispatch resp runner sel clicked).msgs) ∧
    (∀ (resp : List Char) (runner : List Char → CommandOutcome)
       (sel : List (List Char) → List Char) (clicked : Bool) (m : Msg),
      m ∈ (appDispatch resp runner sel clicked).msgs →
      m.isSuccess = true →
      ∃ c, (appDispatch resp runner sel clicked).cmds.getLast? = some c ∧
        (runner c).stderr = []) ∧
    (∀ (resp : List Char) (runner : List Char → CommandOutcome)
       (sel : List (List Char) → List Char) (clicked confirm : Bool)
       (c : List Char),
      c ∈ (ap2Dispatch resp runner sel clicked confirm).cmds →
      (runner c).stderr ≠ [] →
      Msg.error (runner c).stderr ∈
        (ap2Dispatch resp runner sel clicked confirm).msgs) ∧
    (∀ (resp : List Char) (runner : List Char → CommandOutcome)
       (sel : List (List Char) → List Char) (clicked confirm : Bool)
       (m : Msg),
      m ∈ (ap2Dispatch resp runner sel clicked confirm).msgs →
      m.isSuccess = true →
      ∃ c, (ap2Dispatch resp runner sel clicked confirm).cmds.getLast? =
        some c ∧ (runner c).stderr = []) := by
  refine ⟨?_, ?_, ?_, ?_⟩
  · intro resp runner sel clicked c hc he
    cases hcl : classify resp with
    | search term =>
      have hd : appDispatch resp runner sel clicked =
          searchFlow term runner sel clicked := by
        simp [appDispatch, hcl]
      rw [hd] at hc ⊢
      exact searchFlow_err_mem term runner sel clicked c hc he
    | install pid =>
      by_cases h6 : (runner (installCmd pid)).stderr = []
      · have hd : appDispatch resp runner sel clicked =
            ⟨[installOutputMsg (runner (installCmd pid)).stdout],
             [installCmd pid], false⟩ := by
          simp [appDispatch, hcl, h6]
        rw [hd] at hc
        simp only [List.mem_singleton] at hc
        subst hc
        exact absurd h6 he
      · have hd : appDispatch resp runner sel clicked =
            ⟨[.error (runner (installCmd pid)).stderr],
             [installCmd pid], false⟩ := by
          simp [appDispatch, hcl, h6]
        rw [hd] at hc ⊢
        simp only [List.mem_singleton] at hc
        subst hc
        simp
    | sleepTimeout payload =>
      cases hn : pyInt payload with
      | none =>
        have hd : appDispatch resp runner sel clicked =
            ⟨[.error invalidTimeMsg], [], false⟩ := by
          simp [appDispatch, hcl, hn]
        rw [hd] at hc
        simp at hc
      | some n =>
        by_cases h6 : (runner (powercfgCmd n)).stderr = []
        · have hd : appDispatch resp runner sel clicked =
              ⟨[sleepSuccessMsg n], [powercfgCmd n], false⟩ := by
            simp [appDispatch, hcl, hn, h6]
          rw [hd] at hc
          simp only [List.mem_singleton] at hc
          subst hc
          exact absurd h6 he
        · have hd : appDispatch resp runner sel clicked =
              ⟨[.error (runner (powercfgCmd n)).stderr],
               [powercfgCmd n], false⟩ := by
            simp [appDispatch, hcl, hn, h6]
          rw [hd] at hc ⊢
          simp only [List.mem_singleton] at hc
          subst hc
          simp
    | unrecognized => simp [appDispatch, hcl] at hc
  · intro resp runner sel clicked m hm hs
    cases hcl : classify resp with
    | search term =>
      have hd : appDispatch resp runner sel clicked =
          searchFlow term runner sel clicked := by
        simp [appDispatch, hcl]
      rw [hd] at hm ⊢
      exact searchFlow_success_needs_ok term runner sel clicked m hm hs
    | install pid =>
      by_cases h6 : (runner (installCmd pid)).stderr = []
      · have hd : appDispatch resp runner sel clicked =
            ⟨[installOutputMsg (runner (installCmd pid)).stdout],
             [installCmd pid], false⟩ := by
          simp [appDispatch, hcl, h6]
        rw [hd]
        exact ⟨installCmd pid, rfl, h6⟩
      · have hd : appDispatch resp runner sel clicked =
            ⟨[.error (runner (installCmd pid)).stderr],
             [installCmd pid], false⟩ := by
          simp [appDispatch, hcl, h6]
        rw [hd] at hm
        simp only [List.mem_singleton] at hm
        subst hm
        simp [Msg.isSuccess] at hs
    | sleepTimeout payload =>
      cases hn : pyInt payload with
      | none =>
        have hd : appDispatch resp runner sel clicked =
            ⟨[.error invalidTimeMsg], [], false⟩ := by
          simp [appDispatch, hcl, hn]
        rw [hd] at hm
        simp only [List.mem_singleton] at hm
        subst hm
        simp [Msg.isSuccess] at hs
      | some n =>
        by_cases h6 : (runner (powercfgCmd n)).stderr = []
        · have hd : appDispatch resp runner sel clicked =
              ⟨[sleepSuccessMsg n], [powercfgCmd n], false⟩ := by
            simp [appDispatch, hcl, hn, h6]
          rw [hd]
          exact ⟨powercfgCmd n, rfl, h6⟩
        · have hd : appDispatch resp runner sel clicked =
              ⟨[.error (runner (powercfgCmd n)).stderr],
               [powercfgCmd n], false⟩ := by
            simp [appDispatch, hcl, hn, h6]
          rw [hd] at hm
          simp only [List.mem_singleton] at hm
          subst hm
          simp [Msg.isSuccess] at hs
    | unrecognized =>
      have hd : appDispatch resp runner sel clicked =
          ⟨[.info cantProcessMsg], [], false⟩ := by
        simp [appDispatch, hcl]
      rw [hd] at hm
      simp only [List.mem_singleton] at hm
      subst hm
      simp [Msg.isSuccess] at hs
  · intro resp runner sel clicked confirm c hc he
    by_cases h : occursIn searchMarker resp = true
    · have hd : ap2Dispatch resp runner sel clicked confirm =
          searchFlow (stripPy (removeAll searchMarker resp)) runner sel
            clicked := by
        simp [ap2Dispatch, h]
      rw [hd] at hc ⊢
      exact searchFlow_err_mem _ runner sel clicked c hc he
    · cases confirm with
      | false =>
        have hd : ap2Dispatch resp runner sel clicked false =
            ⟨[], [], false⟩ := by
          simp [ap2Dispatch, h]
        rw [hd] at hc
        simp at hc
      | true =>
        by_cases h6 : (runner resp).stderr = []
        · have hd : ap2Dispatch resp runner sel clicked true =
              ⟨[cmdExecutedMsg (runner resp).stdout], [resp], false⟩ := by
            simp [ap2Dispatch, h, h6]
          rw [hd] at hc
          simp only [List.mem_singleton] at hc
          subst hc
          exact absurd h6 he
        · have hd : ap2Dispatch resp runner sel clicked true =
              ⟨[.error (runner resp).stderr], [resp], false⟩ := by
            simp [ap2Dispatch, h, h6]
          rw [hd] at hc ⊢
          simp only [List.mem_singleton] at hc
          subst hc
          simp
  · intro resp runner sel clicked confirm m hm hs
    by_cases h : occursIn searchMarker resp = true
    · have hd : ap2Dispatch resp runner sel clicked confirm =
          searchFlow (stripPy (removeAll searchMarker resp)) runner sel
            clicked := by
        simp [ap2Dispatch, h]
      rw [hd] at hm ⊢
      exact searchFlow_success_needs_ok _ runner sel clicked m hm hs
    · cases confirm with
      | false =>
        have hd : ap2Dispatch resp runner sel clicked false =
            ⟨[], [], false⟩ := by
          simp [ap2Dispatch, h]
        rw [hd] at hm
        simp at hm
      | true =>
        by_cases h6 : (runner resp).stderr = []
        · have hd : ap2Dispatch resp runner sel clicked true =
              ⟨[cmdExecutedMsg (runner resp).stdout], [resp], false⟩ := by
            simp [ap2Dispatch, h, h6]
          rw [hd]
          exact ⟨resp, rfl, h6⟩
        · have hd : ap2Dispatch resp runner sel clicked true =
              ⟨[.error (runner resp).stderr], [resp], false⟩ := by
            simp [ap2Dispatch, h, h6]
          rw [hd] at hm
          simp only [List.mem_singleton] at hm
          subst hm
          simp [Msg.isSuccess] at hs

/-- C5, witness: an install response with an all-quiet runner: the
success message is justified by the last command's empty stderr. -/
theorem c5_stderr_blocks_success_witness :
    installOutputMsg ("ok".data) ∈
      (appDispatch ("WINGET_INSTALL: X".data)
        (fun _ => ⟨"ok".data, []⟩) (fun _ => []) false).msgs ∧
    (installOutputMsg ("ok".data)).isSuccess = true ∧
    ∃ c, (appDispatch ("WINGET_INSTALL: X".data)
        (fun _ => ⟨"ok".data, []⟩) (fun _ => []) false).cmds.getLast? =
        some c ∧
      ((fun _ => ⟨"ok".data, []⟩ : List Char → CommandOutcome) c).stderr
        = [] :=
  ⟨by decide, by decide,
    c5_stderr_blocks_success.2.1 ("WINGET_INSTALL: X".data)
      (fun _ => ⟨"ok".data, []⟩) (fun _ => []) false
      (installOutputMsg ("ok".data)) (by decide) (by decide)⟩

end Quartermaster
